import Mathlib

/-!
Verification development for the response-parsing dispatcher and asynchronous
validation orchestrator of `instructor/function_calls.py`.

The Python source is shallowly embedded: every function of the source that the
properties below mention is translated into a Lean definition of the same name.
Python exceptions become `Except` error values, `None`-able attributes become
`Option`, dynamic (duck-typed) attribute access becomes a record of optional
fields, and opaque user-supplied validator coroutine bodies are modelled by
their observable outcome (success, or the message of the exception they raise).
-/

set_option autoImplicit false

namespace Instructor

/-! ## Asynchronous validation orchestrator
Embedding of `OpenAISchema.execute_field_validator`, `execute_model_validator`,
`get_model_coroutines` and `model_async_validate`
(`src/instructor/function_calls.py`, lines 124-218). -/

/-- Validation context mapping (`validation_context: dict[str, Any]`); values
are opaque to the orchestrator, so an association list of strings suffices. -/
abbrev Ctx := List (String × String)

/-- Wrapper the orchestrator builds around the caller's mapping
(`AsyncValidationContext(context=validation_context)` from
`instructor.validators`). -/
structure AsyncValidationContext where
  context : Ctx
  deriving Repr, DecidableEq

/-- A field-scoped async validator registered on a class. In the source this is
a function object carrying `ASYNC_VALIDATOR_KEY = (fields, validation_func,
requires_validation_context)`. The coroutine body `validation_func` is opaque
user code; it is modelled by its outcome `run`, keyed by the name of the field
whose value it is invoked on (for a fixed instance the attribute value is a
function of the field name): `Except.ok` when the coroutine returns, and
`Except.error msg` when it raises an exception whose message is `msg`. -/
structure FieldValidatorSpec where
  fields : List String
  requiresContext : Bool
  run : String → Option AsyncValidationContext → Except String Unit

/-- A model-scoped async validator registered on a class
(`ASYNC_MODEL_VALIDATOR_KEY = (validation_func, requires_validation_context)`),
with the opaque coroutine body modelled by its outcome. -/
structure ModelValidatorSpec where
  requiresContext : Bool
  run : Option AsyncValidationContext → Except String Unit

/-- Dotted-path rendering used in failure messages: Python `'.'.join(prefix)`. -/
def dotJoin (l : List String) : String :=
  String.intercalate "." l

/-- Embedding of `execute_field_validator` (lines 124-139): await the validator
on the field's value, catching every exception and turning it into a
`ValueError` value (never raised) whose message records the exception and the
dotted path. A `none` result is the implicit Python `None` of success. -/
def execute_field_validator (fv : FieldValidatorSpec) (field : String)
    (context : Option AsyncValidationContext) (pre : List String) :
    Option String :=
  match fv.run field context with
  | .ok _ => none
  | .error e =>
      some ("Exception of " ++ e ++ " encountered" ++
        (if pre = [] then "" else " at " ++ dotJoin pre))

/-- Embedding of `execute_model_validator` (lines 141-152). -/
def execute_model_validator (mv : ModelValidatorSpec)
    (context : Option AsyncValidationContext) (pre : List String) :
    Option String :=
  match mv.run context with
  | .ok _ => none
  | .error e =>
      some ("Exception of " ++ e ++ " encountered" ++
        (if pre = [] then "" else " at " ++ dotJoin pre))

mutual
/-- A validated instance (an `OpenAISchema` object): its attribute mapping
(`self.__dict__` / `dict(self)`) together with the async validators its class
registers (`get_async_validators()` / `get_async_model_validators()`). -/
inductive Inst where
  | mk (attrs : AttrList) (fieldValidators : List FieldValidatorSpec)
      (modelValidators : List ModelValidatorSpec)
/-- An attribute value as the orchestrator's recursion sees it: a nested
`OpenAISchema` instance, a `list`/`set`/`tuple` of items, or any other value
(which the recursion ignores). -/
inductive Attr where
  | prim
  | obj (inst : Inst)
  | coll (items : ItemList)
/-- The ordered attribute mapping of an instance. -/
inductive AttrList where
  | nil
  | cons (name : String) (value : Attr) (rest : AttrList)
/-- Elements of a `list`/`set`/`tuple` attribute. -/
inductive ItemList where
  | nil
  | cons (item : Attr) (rest : ItemList)
end

/-- Key membership in the attribute mapping: Python `field in values`. -/
def AttrList.hasName : AttrList → String → Bool
  | .nil, _ => false
  | .cons n _ rest, f => n == f || rest.hasName f

/-- The inner `for field in fields` loop of `get_model_coroutines`
(lines 180-193): raise `ValueError` on a field absent from the instance,
otherwise schedule `execute_field_validator` with path `prefix + [field]`. -/
def fieldLoop (attrs : AttrList) (ctx : Ctx) (pre : List String)
    (fv : FieldValidatorSpec) : List String → Except String (List (Option String))
  | [] => .ok []
  | field :: fs =>
      if attrs.hasName field then do
        let rest ← fieldLoop attrs ctx pre fv fs
        .ok (execute_field_validator fv field
          (if fv.requiresContext then some ⟨ctx⟩ else none) (pre ++ [field]) :: rest)
      else .error ("Invalid Field of " ++ field ++ " provided")

/-- The field-validator branch of the `for validator in validators +
model_validators` loop: every validator in `get_async_validators()` carries
`ASYNC_VALIDATOR_KEY` and takes the field branch. -/
def fieldValidatorCoros (attrs : AttrList) (ctx : Ctx) (pre : List String) :
    List FieldValidatorSpec → Except String (List (Option String))
  | [] => .ok []
  | fv :: rest => do
      let c ← fieldLoop attrs ctx pre fv fv.fields
      let r ← fieldValidatorCoros attrs ctx pre rest
      .ok (c ++ r)

/-- The model-validator branch of the loop (lines 163-175): schedule
`execute_model_validator` with the unchanged path prefix. -/
def modelValidatorCoros (ctx : Ctx) (pre : List String)
    (mvs : List ModelValidatorSpec) : List (Option String) :=
  mvs.map (fun mv =>
    execute_model_validator mv
      (if mv.requiresContext then some ⟨ctx⟩ else none) pre)

mutual
/-- Embedding of `get_model_coroutines` (lines 154-214): collect the scheduled
coroutines of this instance's own validators, then recurse into every attribute
that is a nested instance or a collection of instances, extending the path with
the attribute name. Each scheduled coroutine is represented by its eventual
`gather` result (`none` success, `some msg` a captured failure). -/
def get_model_coroutines : Inst → Ctx → List String →
    Except String (List (Option String))
  | .mk attrs fvs mvs, ctx, pre => do
      let fcs ← fieldValidatorCoros attrs ctx pre fvs
      let mcs := modelValidatorCoros ctx pre mvs
      let sub ← attrCoroutines attrs ctx pre
      .ok (fcs ++ mcs ++ sub)
/-- The `for attribute_name, attribute_value in self.__dict__.items()` loop. -/
def attrCoroutines : AttrList → Ctx → List String →
    Except String (List (Option String))
  | .nil, _, _ => .ok []
  | .cons name value rest, ctx, pre => do
      let here ← attrValueCoroutines name value ctx pre
      let more ← attrCoroutines rest ctx pre
      .ok (here ++ more)
/-- Dispatch on one attribute value: nested `OpenAISchema` instances recurse
with `prefix + [attribute_name]`; collections recurse element-wise; anything
else contributes nothing. -/
def attrValueCoroutines : String → Attr → Ctx → List String →
    Except String (List (Option String))
  | _, .prim, _, _ => .ok []
  | name, .obj i, ctx, pre => get_model_coroutines i ctx (pre ++ [name])
  | name, .coll items, ctx, pre => itemCoroutines name items ctx pre
/-- The `for item in attribute_value` loop: only items that are `OpenAISchema`
instances are recursed into. -/
def itemCoroutines : String → ItemList → Ctx → List String →
    Except String (List (Option String))
  | _, .nil, _, _ => .ok []
  | name, .cons (.obj i) rest, ctx, pre => do
      let here ← get_model_coroutines i ctx (pre ++ [name])
      let more ← itemCoroutines name rest ctx pre
      .ok (here ++ more)
  | name, .cons .prim rest, ctx, pre => itemCoroutines name rest ctx pre
  | name, .cons (.coll _) rest, ctx, pre => itemCoroutines name rest ctx pre
end

/-- Embedding of `model_async_validate` (lines 216-218): gather all scheduled
coroutines and keep the truthy results (`[item for item in ... if item]`);
success (`None`) results are dropped. An `Except.error` is a `ValueError`
escaping the call. -/
def model_async_validate (i : Inst) (validation_context : Ctx) :
    Except String (List String) := do
  let coros ← get_model_coroutines i validation_context []
  .ok (coros.filterMap id)

/-! ### Well-formedness: every registered field validator names only fields
present on its instance, recursively. This is exactly the condition under which
the `raise ValueError(f"Invalid Field of ...")` branch is unreachable. -/

mutual
/-- Every field-scoped validator of this instance, and of every nested
instance, targets only fields present in the attribute mapping. -/
def wfInst : Inst → Bool
  | .mk attrs fvs _ =>
      fvs.all (fun fv => fv.fields.all (fun f => attrs.hasName f)) && wfAttrs attrs
/-- Pointwise well-formedness of an attribute mapping. -/
def wfAttrs : AttrList → Bool
  | .nil => true
  | .cons _ v rest => wfAttr v && wfAttrs rest
/-- Well-formedness of one attribute value. -/
def wfAttr : Attr → Bool
  | .prim => true
  | .obj i => wfInst i
  | .coll items => wfItems items
/-- Well-formedness of collection elements. -/
def wfItems : ItemList → Bool
  | .nil => true
  | .cons a rest => wfAttr a && wfItems rest
end

theorem fieldLoop_ok (attrs : AttrList) (ctx : Ctx) (pre : List String)
    (fv : FieldValidatorSpec) (fs : List String)
    (h : fs.all (fun f => attrs.hasName f) = true) :
    ∃ l, fieldLoop attrs ctx pre fv fs = .ok l := by
  induction fs with
  | nil => exact ⟨[], rfl⟩
  | cons f fs ih =>
      simp only [List.all_cons, Bool.and_eq_true] at h
      obtain ⟨l, hl⟩ := ih h.2
      refine ⟨execute_field_validator fv f
        (if fv.requiresContext then some ⟨ctx⟩ else none) (pre ++ [f]) :: l, ?_⟩
      simp only [fieldLoop, h.1, if_true, hl]
      rfl

theorem fieldValidatorCoros_ok (attrs : AttrList) (ctx : Ctx) (pre : List String)
    (fvs : List FieldValidatorSpec)
    (h : fvs.all (fun fv => fv.fields.all (fun f => attrs.hasName f)) = true) :
    ∃ l, fieldValidatorCoros attrs ctx pre fvs = .ok l := by
  induction fvs with
  | nil => exact ⟨[], rfl⟩
  | cons fv fvs ih =>
      simp only [List.all_cons, Bool.and_eq_true] at h
      obtain ⟨l, hl⟩ := fieldLoop_ok attrs ctx pre fv fv.fields h.1
      obtain ⟨r, hr⟩ := ih h.2
      refine ⟨l ++ r, ?_⟩
      simp only [fieldValidatorCoros, hl, hr]
      rfl

mutual
theorem gmc_ok : ∀ (i : Inst) (ctx : Ctx) (pre : List String),
    wfInst i = true → ∃ l, get_model_coroutines i ctx pre = .ok l
  | .mk attrs fvs mvs, ctx, pre, h => by
      simp only [wfInst, Bool.and_eq_true] at h
      obtain ⟨fcs, hf⟩ := fieldValidatorCoros_ok attrs ctx pre fvs h.1
      obtain ⟨sub, hs⟩ := attrCoros_ok attrs ctx pre h.2
      refine ⟨fcs ++ modelValidatorCoros ctx pre mvs ++ sub, ?_⟩
      simp only [get_model_coroutines, hf, hs]
      rfl
theorem attrCoros_ok : ∀ (attrs : AttrList) (ctx : Ctx) (pre : List String),
    wfAttrs attrs = true → ∃ l, attrCoroutines attrs ctx pre = .ok l
  | .nil, _, _, _ => ⟨[], rfl⟩
  | .cons name value rest, ctx, pre, h => by
      simp only [wfAttrs, Bool.and_eq_true] at h
      obtain ⟨here, hh⟩ := attrValueCoros_ok name value ctx pre h.1
      obtain ⟨more, hm⟩ := attrCoros_ok rest ctx pre h.2
      refine ⟨here ++ more, ?_⟩
      simp only [attrCoroutines, hh, hm]
      rfl
theorem attrValueCoros_ok : ∀ (name : String) (a : Attr) (ctx : Ctx)
    (pre : List String), wfAttr a = true →
    ∃ l, attrValueCoroutines name a ctx pre = .ok l
  | _, .prim, _, _, _ => ⟨[], rfl⟩
  | name, .obj i, ctx, pre, h => by
      simp only [wfAttr] at h
      obtain ⟨l, hl⟩ := gmc_ok i ctx (pre ++ [name]) h
      exact ⟨l, by simp [attrValueCoroutines, hl]⟩
  | name, .coll items, ctx, pre, h => by
      simp only [wfAttr] at h
      obtain ⟨l, hl⟩ := itemCoros_ok name items ctx pre h
      exact ⟨l, by simp [attrValueCoroutines, hl]⟩
theorem itemCoros_ok : ∀ (name : String) (items : ItemList) (ctx : Ctx)
    (pre : List String), wfItems items = true →
    ∃ l, itemCoroutines name items ctx pre = .ok l
  | _, .nil, _, _, _ => ⟨[], rfl⟩
  | name, .cons (.obj i) rest, ctx, pre, h => by
      simp only [wfItems, wfAttr, Bool.and_eq_true] at h
      obtain ⟨here, hh⟩ := gmc_ok i ctx (pre ++ [name]) h.1
      obtain ⟨more, hm⟩ := itemCoros_ok name rest ctx pre h.2
      refine ⟨here ++ more, ?_⟩
      simp only [itemCoroutines, hh, hm]
      rfl
  | name, .cons .prim rest, ctx, pre, h => by
      simp only [wfItems, wfAttr, Bool.and_eq_true] at h
      obtain ⟨more, hm⟩ := itemCoros_ok name rest ctx pre h.2
      exact ⟨more, by simp [itemCoroutines, hm]⟩
  | name, .cons (.coll inner) rest, ctx, pre, h => by
      simp only [wfItems, wfAttr, Bool.and_eq_true] at h
      obtain ⟨more, hm⟩ := itemCoros_ok name rest ctx pre h.2
      exact ⟨more, by simp [itemCoroutines, hm]⟩
end

/-! ### Claims C1 and C2 -/

/-- Instance whose single registered field-scoped async validator names the
field missing, which is absent from the (empty) attribute mapping. -/
def absentFieldInst : Inst :=
  .mk .nil [⟨["missing"], false, fun _ _ => .ok ()⟩] []

/-- C1 counterexample: `model_async_validate` does raise across its boundary.
On an instance whose registered field-scoped validator names a field absent
from the instance, the call propagates `ValueError("Invalid Field of missing
provided")` instead of returning a list (source lines 180-182: the `raise`
inside `get_model_coroutines` is not caught by `model_async_validate`). -/
theorem c1_absent_field_raises :
    model_async_validate absentFieldInst [] =
      .error "Invalid Field of missing provided" := rfl

/-- C1 (amended): for every instance all of whose registered field-scoped
validators (recursively) name only fields present on their instance, and for
every validation context, `model_async_validate` never raises: it returns the
gathered list, and every validator error among the gathered coroutine results
is captured as an element of the returned list. -/
theorem c1_model_async_validate_ok_of_wf (i : Inst) (ctx : Ctx)
    (h : wfInst i = true) :
    ∃ coros, get_model_coroutines i ctx [] = .ok coros ∧
      model_async_validate i ctx = .ok (coros.filterMap id) ∧
      ∀ msg : String, some msg ∈ coros → msg ∈ coros.filterMap id := by
  obtain ⟨coros, hc⟩ := gmc_ok i ctx [] h
  refine ⟨coros, hc, ?_, ?_⟩
  · simp only [model_async_validate, hc]
    rfl
  · intro msg hm
    exact List.mem_filterMap.mpr ⟨some msg, hm, rfl⟩

/-- Instance with one present-field validator that always fails: a concrete
input satisfying the hypothesis of the amended C1 theorem. -/
def presentFieldInst : Inst :=
  .mk (.cons "name" .prim .nil)
    [⟨["name"], false, fun _ _ => .error "bad name"⟩] []

/-- Witness for the amended C1 theorem at a concrete instance. -/
theorem c1_model_async_validate_ok_of_wf_witness :
    ∃ coros, get_model_coroutines presentFieldInst [] [] = .ok coros ∧
      model_async_validate presentFieldInst [] = .ok (coros.filterMap id) ∧
      ∀ msg : String, some msg ∈ coros → msg ∈ coros.filterMap id :=
  c1_model_async_validate_ok_of_wf presentFieldInst [] rfl

/-- Two-level nested instance: the root's attribute `childField` is a nested
instance whose attribute `grandchildField` carries exactly one always-failing
field-scoped validator raising an exception with message `e`. -/
def twoLevelInst (e : String) : Inst :=
  .mk (.cons "childField"
        (.obj (.mk (.cons "grandchildField" .prim .nil)
          [⟨["grandchildField"], false, fun _ _ => .error e⟩] []))
        .nil) [] []

/-- C2: a validator coroutine that raises is caught and converted into a
failure value carrying the exception's message and the dotted path (first two
conjuncts, field- and object-scoped), and on the instance whose nested child
two levels deep carries exactly one always-failing validator,
`model_async_validate` returns exactly one failure whose dotted path is
`childField.grandchildField` and whose message contains the validator's
failure text (third conjunct). -/
theorem c2_exception_converted_to_failure :
    (∀ (fv : FieldValidatorSpec) (field : String)
        (c : Option AsyncValidationContext) (pre : List String) (e : String),
        fv.run field c = .error e →
        execute_field_validator fv field c pre =
          some ("Exception of " ++ e ++ " encountered" ++
            (if pre = [] then "" else " at " ++ dotJoin pre))) ∧
    (∀ (mv : ModelValidatorSpec) (c : Option AsyncValidationContext)
        (pre : List String) (e : String),
        mv.run c = .error e →
        execute_model_validator mv c pre =
          some ("Exception of " ++ e ++ " encountered" ++
            (if pre = [] then "" else " at " ++ dotJoin pre))) ∧
    (∀ e : String,
        model_async_validate (twoLevelInst e) [] =
          .ok ["Exception of " ++ e ++ " encountered at childField.grandchildField"]) := by
  refine ⟨?_, ?_, ?_⟩
  · intro fv field c pre e h
    simp [execute_field_validator, h]
  · intro mv c pre e h
    simp [execute_model_validator, h]
  · intro e
    show Except.ok ["Exception of " ++ e ++ " encountered" ++
      (" at " ++ dotJoin ["childField", "grandchildField"])] = _
    have hlit : " encountered" ++ (" at " ++ dotJoin ["childField", "grandchildField"]) =
        " encountered at childField.grandchildField" := rfl
    simp [String.append_assoc, hlit]

/-- Witness for C2 discharging the exception hypotheses at concrete inputs. -/
theorem c2_exception_converted_to_failure_witness :
    execute_field_validator ⟨["age"], false, fun _ _ => .error "boom"⟩ "age"
        none ["age"] = some ("Exception of boom encountered at age") ∧
    execute_model_validator ⟨false, fun _ => .error "broke"⟩ none [] =
        some ("Exception of broke encountered") := by
  constructor
  · have h := c2_exception_converted_to_failure.1
      ⟨["age"], false, fun _ _ => .error "boom"⟩ "age" none ["age"] "boom" rfl
    simpa [dotJoin] using h
  · have h := c2_exception_converted_to_failure.2.1
      ⟨false, fun _ => .error "broke"⟩ none [] "broke" rfl
    simpa using h

/-! ## Response parser — mode dispatch
Embedding of `OpenAISchema.from_response` and the `parse_*` classmethods
(`src/instructor/function_calls.py`, lines 220-473). Python's dynamically typed
`completion` object becomes a record of the optional attributes the parsers
read; exceptions (`IncompleteOutputException`, `AssertionError`, `ValueError`,
pydantic `ValidationError`, `AttributeError`, `IndexError`) become the error
side of `Except`. -/

/-- A JSON-like value: the shape of `json.loads` output and of the VertexAI
function-call argument mapping. -/
inductive JsonVal where
  | str (s : String)
  | num (n : Int)
  | boolV (b : Bool)
  | null
  | arr (xs : List JsonVal)
  | obj (kvs : List (String × JsonVal))

/-- The `function` member of an OpenAI tool call (`tool_call.function`). -/
structure ToolCallFunction where
  name : String
  arguments : String

/-- One element of `message.tool_calls`. -/
structure ToolCall where
  function : ToolCallFunction

/-- The deprecated `message.function_call`. -/
structure FunctionCall where
  name : String
  arguments : String

/-- The message of a chat-completion choice; every attribute the parsers read
is optional, mirroring the provider types. -/
structure ChatMessage where
  content : Option String := none
  tool_calls : Option (List ToolCall) := none
  function_call : Option FunctionCall := none

/-- One element of `completion.choices`. -/
structure Choice where
  finish_reason : Option String := none
  message : ChatMessage := {}

/-- An Anthropic content block: `tool_use` blocks carry an `input` mapping
(the source immediately re-serializes it with `json.dumps`, so it is kept as
its JSON text), `text` blocks carry text. -/
inductive ContentBlock where
  | tool_use (input : String)
  | textBlock (text : String)

/-- The VertexAI attribute chain
`candidates[0].content.parts[0].function_call.args`. -/
structure VertexFunctionCall where
  args : List (String × JsonVal)

/-- One element of `candidate.content.parts`. -/
structure VertexPart where
  function_call : VertexFunctionCall

/-- The `content` of a VertexAI candidate. -/
structure VertexContent where
  parts : List VertexPart := []

/-- One element of `completion.candidates`. -/
structure Candidate where
  content : VertexContent := {}

/-- The raw provider response as the duck-typed union of every attribute the
dispatcher reads. A `none` optional attribute models absence (its access
raises `AttributeError`, or for the Gemini `.text` property a `ValueError`);
`isAnthropicMessage` models `isinstance(completion, anthropic.types.Message)`. -/
structure Completion where
  choices : List Choice := []
  isAnthropicMessage : Bool := false
  stop_reason : Option String := none
  content : List ContentBlock := []
  text : Option String := none
  candidates : List Candidate := []

/-- Modelled from the spec: the `Mode` enumeration lives in `instructor/mode.py`,
which is not part of the parsing module source. The spec describes it as a
closed enumeration identifying the provider/response-shape and states that the
dispatcher fails with a `ValueError` naming any mode it does not recognize, so
the enumeration has members beyond the thirteen the dispatcher handles;
`PARALLEL_TOOLS` stands for such an unrecognized member. -/
inductive Mode where
  | FUNCTIONS
  | PARALLEL_TOOLS
  | TOOLS
  | MISTRAL_TOOLS
  | JSON
  | MD_JSON
  | JSON_SCHEMA
  | ANTHROPIC_TOOLS
  | ANTHROPIC_JSON
  | COHERE_TOOLS
  | VERTEXAI_TOOLS
  | VERTEXAI_JSON
  | GEMINI_JSON
  | COHERE_JSON_SCHEMA
  deriving DecidableEq, Repr

/-- Python `str(mode)` as it appears in the invalid-mode `ValueError`. -/
def modeName : Mode → String
  | .FUNCTIONS => "Mode.FUNCTIONS"
  | .PARALLEL_TOOLS => "Mode.PARALLEL_TOOLS"
  | .TOOLS => "Mode.TOOLS"
  | .MISTRAL_TOOLS => "Mode.MISTRAL_TOOLS"
  | .JSON => "Mode.JSON"
  | .MD_JSON => "Mode.MD_JSON"
  | .JSON_SCHEMA => "Mode.JSON_SCHEMA"
  | .ANTHROPIC_TOOLS => "Mode.ANTHROPIC_TOOLS"
  | .ANTHROPIC_JSON => "Mode.ANTHROPIC_JSON"
  | .COHERE_TOOLS => "Mode.COHERE_TOOLS"
  | .VERTEXAI_TOOLS => "Mode.VERTEXAI_TOOLS"
  | .VERTEXAI_JSON => "Mode.VERTEXAI_JSON"
  | .GEMINI_JSON => "Mode.GEMINI_JSON"
  | .COHERE_JSON_SCHEMA => "Mode.COHERE_JSON_SCHEMA"

/-- The Python exceptions a parse can raise, as error values. -/
inductive ParseError where
  | incompleteOutput (lastCompletion : Completion)
  | assertionError (msg : String)
  | valueError (msg : String)
  | validationError (msg : String)
  | attributeError (msg : String)
  | indexError (msg : String)

/-- The target type `cls`, abstracted to what the parsers use of it: its
schema name (`cls.openai_schema["name"]`) and its pydantic validation entry
points `model_validate_json` / `model_validate`, opaque functions of the
source text/object, the validation context and the `strict` flag, returning an
instance of `α` or raising `pydantic.ValidationError`. -/
structure TargetCls (α : Type) where
  schemaName : String
  validateJson : String → Option Ctx → Option Bool → Except String α
  validateObj : JsonVal → Option Ctx → Option Bool → Except String α

/-- External Python collaborators the parsers call:
`instructor.utils.extract_json_from_codeblock` (not under the parsing module's
source; pure text extraction) and `json.loads` with its `strict` flag (`false`
tolerates raw control characters). -/
structure PyEnv where
  extract_json_from_codeblock : String → String
  jsonLoads : String → Bool → Except String JsonVal

/-- Propagate a pydantic validation failure unchanged. -/
def liftValidation {α : Type} : Except String α → Except ParseError α
  | .ok a => .ok a
  | .error e => .error (.validationError e)

/-- Embedding of `parse_cohere_json_schema` (lines 276-288). -/
def parse_cohere_json_schema {α : Type} (cls : TargetCls α)
    (completion : Completion) (validation_context : Option Ctx)
    (strict : Option Bool) : Except ParseError α :=
  match completion.text with
  | none => .error (.assertionError "Completion is not of type NonStreamedChatResponse")
  | some t => liftValidation (cls.validateJson t validation_context strict)

/-- The list comprehension of `parse_anthropic_tools`: the `json.dumps`-ed
inputs of the `tool_use` blocks. -/
def toolUseInputs (content : List ContentBlock) : List String :=
  content.filterMap (fun b =>
    match b with
    | .tool_use input => some input
    | .textBlock _ => none)

/-- Embedding of `parse_anthropic_tools` (lines 290-313): the truncation check
fires only on an `anthropic.types.Message` with `stop_reason == 'max_tokens'`;
the `TypeAdapter(Annotated[list[Any], Field(min_length=1, max_length=1)])`
validation demands exactly one `tool_use` block. -/
def parse_anthropic_tools {α : Type} (cls : TargetCls α)
    (completion : Completion) (validation_context : Option Ctx)
    (strict : Option Bool) : Except ParseError α :=
  if completion.isAnthropicMessage = true ∧ completion.stop_reason = some "max_tokens" then
    .error (.incompleteOutput completion)
  else
    match toolUseInputs completion.content with
    | [tool_call] => liftValidation (cls.validateJson tool_call validation_context strict)
    | _ => .error (.validationError "List should have at least 1 item and at most 1 item")

/-- Embedding of `parse_anthropic_json` (lines 315-340): assert the completion
is an anthropic `Message`, check truncation, take `content[0].text`, extract
the JSON, then validate strictly when `strict` is truthy and leniently
(`json.loads(..., strict=False)` plus `model_validate(..., strict=False)`)
otherwise. -/
def parse_anthropic_json {α : Type} (env : PyEnv) (cls : TargetCls α)
    (completion : Completion) (validation_context : Option Ctx)
    (strict : Option Bool) : Except ParseError α :=
  if completion.isAnthropicMessage = false then
    .error (.assertionError "assert isinstance(completion, Message)")
  else if completion.stop_reason = some "max_tokens" then
    .error (.incompleteOutput completion)
  else
    match completion.content.head? with
    | none => .error (.indexError "list index out of range")
    | some (.tool_use _) => .error (.attributeError "object has no attribute text")
    | some (.textBlock text) =>
        let extra_text := env.extract_json_from_codeblock text
        if strict = some true then
          liftValidation (cls.validateJson extra_text validation_context (some true))
        else
          match env.jsonLoads extra_text false with
          | .error e => .error (.valueError e)
          | .ok parsed =>
              liftValidation (cls.validateObj parsed validation_context (some false))

/-- Embedding of `parse_gemini_json` (lines 342-369): when `completion.text`
raises (modelled as `none`), the subsequent use of the unbound variable turns
into `ValueError("Unable to extract JSON from completion text")`; otherwise
identical strict/lenient branching to the anthropic JSON parser. -/
def parse_gemini_json {α : Type} (env : PyEnv) (cls : TargetCls α)
    (completion : Completion) (validation_context : Option Ctx)
    (strict : Option Bool) : Except ParseError α :=
  match completion.text with
  | none => .error (.valueError "Unable to extract JSON from completion text")
  | some text =>
      let extra_text := env.extract_json_from_codeblock text
      if strict = some true then
        liftValidation (cls.validateJson extra_text validation_context (some true))
      else
        match env.jsonLoads extra_text false with
        | .error e => .error (.valueError e)
        | .ok parsed =>
            liftValidation (cls.validateObj parsed validation_context (some false))

/-- Embedding of `parse_vertexai_tools` (lines 371-385). Line 378 assigns
`strict = False` before validating, discarding the caller's argument; the
candidate's argument mapping is copied field by field and validated as an
object. -/
def parse_vertexai_tools {α : Type} (cls : TargetCls α)
    (completion : Completion) (validation_context : Option Ctx)
    (strict : Option Bool) : Except ParseError α :=
  let strict : Option Bool := some false
  match completion.candidates.head? with
  | none => .error (.indexError "list index out of range")
  | some cand =>
      match cand.content.parts.head? with
      | none => .error (.indexError "list index out of range")
      | some part =>
          liftValidation
            (cls.validateObj (.obj part.function_call.args) validation_context strict)

/-- Embedding of `parse_vertexai_json` (lines 387-397): `json.loads` with its
default (strict) text handling, then `model_validate` with the caller's
`strict`. -/
def parse_vertexai_json {α : Type} (env : PyEnv) (cls : TargetCls α)
    (completion : Completion) (validation_context : Option Ctx)
    (strict : Option Bool) : Except ParseError α :=
  match completion.text with
  | none => .error (.attributeError "object has no attribute text")
  | some t =>
      match env.jsonLoads t true with
      | .error e => .error (.valueError e)
      | .ok model => liftValidation (cls.validateObj model validation_context strict)

/-- Embedding of `parse_cohere_tools` (lines 400-413). -/
def parse_cohere_tools {α : Type} (env : PyEnv) (cls : TargetCls α)
    (completion : Completion) (validation_context : Option Ctx)
    (strict : Option Bool) : Except ParseError α :=
  match completion.text with
  | none => .error (.attributeError "object has no attribute text")
  | some text =>
      liftValidation (cls.validateJson (env.extract_json_from_codeblock text)
        validation_context strict)

/-- Embedding of `parse_functions` (lines 415-432): the single function call's
name must equal the schema name. -/
def parse_functions {α : Type} (cls : TargetCls α) (completion : Completion)
    (validation_context : Option Ctx) (strict : Option Bool) :
    Except ParseError α :=
  match completion.choices.head? with
  | none => .error (.indexError "list index out of range")
  | some choice =>
      match choice.message.function_call with
      | none => .error (.attributeError "object has no attribute name")
      | some fc =>
          if fc.name = cls.schemaName then
            liftValidation (cls.validateJson fc.arguments validation_context strict)
          else .error (.assertionError "Function name does not match")

/-- Embedding of `parse_tools` (lines 434-455): `message.tool_calls or []`
must have length exactly 1, the call's function name must equal the schema
name, and its JSON `arguments` payload is validated. -/
def parse_tools {α : Type} (cls : TargetCls α) (completion : Completion)
    (validation_context : Option Ctx) (strict : Option Bool) :
    Except ParseError α :=
  match completion.choices.head? with
  | none => .error (.indexError "list index out of range")
  | some choice =>
      match choice.message.tool_calls.getD [] with
      | [tool_call] =>
          if tool_call.function.name = cls.schemaName then
            liftValidation (cls.validateJson tool_call.function.arguments
              validation_context strict)
          else .error (.assertionError "Tool name does not match")
      | _ => .error (.assertionError
          "Instructor does not support multiple tool calls, use List[Model] instead.")

/-- Embedding of `parse_json` (lines 457-473): the message body (or the empty
string) is scanned for a fenced JSON block and validated. -/
def parse_json {α : Type} (env : PyEnv) (cls : TargetCls α)
    (completion : Completion) (validation_context : Option Ctx)
    (strict : Option Bool) : Except ParseError α :=
  match completion.choices.head? with
  | none => .error (.indexError "list index out of range")
  | some choice =>
      liftValidation (cls.validateJson
        (env.extract_json_from_codeblock (choice.message.content.getD ""))
        validation_context strict)

/-- Embedding of `from_response` (lines 220-274): provider-specific modes are
dispatched first; every remaining mode then passes the
`choices[0].finish_reason == "length"` truncation check before the
OpenAI-family dispatch; an unrecognized mode raises `ValueError` naming it.
(The `Mode.FUNCTIONS` deprecation warning is logging only and has no effect on
the result.) -/
def from_response {α : Type} (env : PyEnv) (cls : TargetCls α)
    (completion : Completion) (validation_context : Option Ctx)
    (strict : Option Bool) (mode : Mode) : Except ParseError α :=
  if mode = .ANTHROPIC_TOOLS then
    parse_anthropic_tools cls completion validation_context strict
  else if mode = .ANTHROPIC_JSON then
    parse_anthropic_json env cls completion validation_context strict
  else if mode = .VERTEXAI_TOOLS then
    parse_vertexai_tools cls completion validation_context strict
  else if mode = .VERTEXAI_JSON then
    parse_vertexai_json env cls completion validation_context strict
  else if mode = .COHERE_TOOLS then
    parse_cohere_tools env cls completion validation_context strict
  else if mode = .GEMINI_JSON then
    parse_gemini_json env cls completion validation_context strict
  else if mode = .COHERE_JSON_SCHEMA then
    parse_cohere_json_schema cls completion validation_context strict
  else
    match completion.choices.head? with
    | none => .error (.indexError "list index out of range")
    | some c0 =>
        if c0.finish_reason = some "length" then
          .error (.incompleteOutput completion)
        else if mode = .FUNCTIONS then
          parse_functions cls completion validation_context strict
        else if mode = .TOOLS ∨ mode = .MISTRAL_TOOLS then
          parse_tools cls completion validation_context strict
        else if mode = .JSON ∨ mode = .JSON_SCHEMA ∨ mode = .MD_JSON then
          parse_json env cls completion validation_context strict
        else .error (.valueError ("Invalid patch mode: " ++ modeName mode))

/-! ### Claim C3 -/

/-- C3: for every mode whose raw response exposes a finish/stop reason that
the dispatcher consults — the anthropic modes (`stop_reason`) and the
OpenAI-family modes (`choices[0].finish_reason`) — a reason indicating a
length cut-off makes `from_response` fail with `IncompleteOutputException`
carrying the original raw response, regardless of the target class, the
payload and the collaborators, i.e. before any extraction is attempted. -/
theorem c3_truncation_fails_before_extraction {α : Type} (env : PyEnv)
    (cls : TargetCls α) (completion : Completion) (ctx : Option Ctx)
    (strict : Option Bool) :
    (completion.isAnthropicMessage = true →
      completion.stop_reason = some "max_tokens" →
      from_response env cls completion ctx strict .ANTHROPIC_TOOLS =
        .error (.incompleteOutput completion) ∧
      from_response env cls completion ctx strict .ANTHROPIC_JSON =
        .error (.incompleteOutput completion)) ∧
    (∀ c0 rest, completion.choices = c0 :: rest →
      c0.finish_reason = some "length" →
      ∀ mode, (mode = Mode.FUNCTIONS ∨ mode = .TOOLS ∨ mode = .MISTRAL_TOOLS ∨
          mode = .JSON ∨ mode = .JSON_SCHEMA ∨ mode = .MD_JSON) →
      from_response env cls completion ctx strict mode =
        .error (.incompleteOutput completion)) := by
  constructor
  · intro hm hs
    constructor
    · simp [from_response, parse_anthropic_tools, hm, hs]
    · simp [from_response, parse_anthropic_json, hm, hs]
  · intro c0 rest hch hfr mode hmode
    rcases hmode with h | h | h | h | h | h <;> subst h <;>
      simp [from_response, hch, hfr]

/-- Anthropic message truncated at the token limit. -/
def anthropicTruncated : Completion :=
  { isAnthropicMessage := true, stop_reason := some "max_tokens" }

/-- OpenAI-style completion whose first choice stopped for length. -/
def openaiTruncated : Completion :=
  { choices := [{ finish_reason := some "length", message := {} }] }

/-- Collaborators that extract nothing and parse everything to `null`. -/
def trivialEnv : PyEnv :=
  { extract_json_from_codeblock := fun s => s,
    jsonLoads := fun _ _ => .ok .null }

/-- A target class that accepts any payload. -/
def unitCls : TargetCls Unit :=
  { schemaName := "Unit",
    validateJson := fun _ _ _ => .ok (),
    validateObj := fun _ _ _ => .ok () }

/-- Witness for C3 at concrete truncated completions. -/
theorem c3_truncation_fails_before_extraction_witness :
    from_response trivialEnv unitCls anthropicTruncated none none .ANTHROPIC_TOOLS =
      .error (.incompleteOutput anthropicTruncated) ∧
    from_response trivialEnv unitCls openaiTruncated none none .TOOLS =
      .error (.incompleteOutput openaiTruncated) := by
  constructor
  · exact ((c3_truncation_fails_before_extraction trivialEnv unitCls
      anthropicTruncated none none).1 rfl rfl).1
  · exact (c3_truncation_fails_before_extraction trivialEnv unitCls
      openaiTruncated none none).2
      { finish_reason := some "length", message := {} } [] rfl rfl
      .TOOLS (Or.inr (Or.inl rfl))

/-! ### Claim C4 -/

/-- C4: in tool-call-array mode, parsing succeeds only with exactly one tool
invocation whose function name equals the target's schema name, in which case
the result is the instance validated from that invocation's JSON `arguments`
payload; zero or two-or-more invocations fail with the `AssertionError`
"Instructor does not support multiple tool calls, use List[Model] instead."
regardless of the invocations' contents, and a name mismatch fails with the
`AssertionError` "Tool name does not match". -/
theorem c4_parse_tools_exactly_one_matching_call {α : Type} (cls : TargetCls α)
    (completion : Completion) (ctx : Option Ctx) (strict : Option Bool) :
    (∀ c0 rest, completion.choices = c0 :: rest →
      (c0.message.tool_calls.getD []).length ≠ 1 →
      parse_tools cls completion ctx strict =
        .error (.assertionError
          "Instructor does not support multiple tool calls, use List[Model] instead.")) ∧
    (∀ c0 rest tc, completion.choices = c0 :: rest →
      c0.message.tool_calls.getD [] = [tc] →
      tc.function.name = cls.schemaName →
      parse_tools cls completion ctx strict =
        liftValidation (cls.validateJson tc.function.arguments ctx strict)) ∧
    (∀ c0 rest tc, completion.choices = c0 :: rest →
      c0.message.tool_calls.getD [] = [tc] →
      tc.function.name ≠ cls.schemaName →
      parse_tools cls completion ctx strict =
        .error (.assertionError "Tool name does not match")) ∧
    (∀ a : α, parse_tools cls completion ctx strict = .ok a →
      ∃ c0 rest tc, completion.choices = c0 :: rest ∧
        c0.message.tool_calls.getD [] = [tc] ∧
        tc.function.name = cls.schemaName ∧
        cls.validateJson tc.function.arguments ctx strict = .ok a) := by
  refine ⟨?_, ?_, ?_, ?_⟩
  · intro c0 rest hch hlen
    rcases htc : c0.message.tool_calls.getD [] with _ | ⟨tc, _ | ⟨tc2, tcs⟩⟩
    · simp [parse_tools, hch, htc]
    · rw [htc] at hlen
      simp at hlen
    · simp [parse_tools, hch, htc]
  · intro c0 rest tc hch htc hname
    simp [parse_tools, hch, htc, hname]
  · intro c0 rest tc hch htc hname
    simp [parse_tools, hch, htc, hname]
  · intro a ha
    rcases hch : completion.choices with _ | ⟨c0, rest⟩
    · rw [parse_tools, hch] at ha
      simp at ha
    · rw [parse_tools, hch] at ha
      simp only [List.head?_cons] at ha
      rcases htc : c0.message.tool_calls.getD [] with _ | ⟨tc, _ | ⟨tc2, tcs⟩⟩
      · rw [htc] at ha
        simp at ha
      · rw [htc] at ha
        by_cases hname : tc.function.name = cls.schemaName
        · rcases hv : cls.validateJson tc.function.arguments ctx strict with e | b
          · simp [hname, hv, liftValidation] at ha
          · simp [hname, hv, liftValidation] at ha
            exact ⟨c0, rest, tc, rfl, htc, hname, by rw [hv, ha]⟩
        · simp [hname] at ha
      · rw [htc] at ha
        simp at ha

/-- Choice carrying two tool calls named `Unit`. -/
def twoToolCallChoice : Choice :=
  { message := { tool_calls := some [⟨⟨"Unit", "\x7b\x7d"⟩⟩, ⟨⟨"Unit", "\x7b\x7d"⟩⟩] } }

/-- Completion with two tool calls. -/
def twoToolCallCompletion : Completion :=
  { choices := [twoToolCallChoice] }

/-- Choice carrying exactly one tool call named `Unit`. -/
def oneToolCallChoice : Choice :=
  { message := { tool_calls := some [⟨⟨"Unit", "\x7b\x7d"⟩⟩] } }

/-- Completion with exactly one matching tool call. -/
def oneToolCallCompletion : Completion :=
  { choices := [oneToolCallChoice] }

/-- Witness for C4 at concrete completions with two and with one tool call. -/
theorem c4_parse_tools_exactly_one_matching_call_witness :
    parse_tools unitCls twoToolCallCompletion none none =
      .error (.assertionError
        "Instructor does not support multiple tool calls, use List[Model] instead.") ∧
    parse_tools unitCls oneToolCallCompletion none none = .ok () := by
  constructor
  · exact (c4_parse_tools_exactly_one_matching_call unitCls
      twoToolCallCompletion none none).1 twoToolCallChoice [] rfl (by decide)
  · exact (c4_parse_tools_exactly_one_matching_call unitCls
      oneToolCallCompletion none none).2.1 oneToolCallChoice []
      ⟨⟨"Unit", "\x7b\x7d"⟩⟩ rfl rfl rfl

/-! ### Claim C5 -/

/-- A target class that reports which `strict` flag pydantic validation was
invoked with. -/
def strictSpyCls : TargetCls (Option Bool) :=
  { schemaName := "Spy",
    validateJson := fun _ _ strict => .ok strict,
    validateObj := fun _ _ strict => .ok strict }

/-- The single part of the VertexAI witness candidate. -/
def vertexPart : VertexPart :=
  { function_call := { args := [("name", .str "Ada")] } }

/-- The single candidate of the VertexAI witness completion. -/
def vertexCandidate : Candidate :=
  { content := { parts := [vertexPart] } }

/-- A VertexAI tools response with one candidate and one part. -/
def vertexToolsCompletion : Completion :=
  { candidates := [vertexCandidate] }

/-- C5 counterexample: the caller's strict argument is not honored in every
mode's parsing path. In `Mode.VERTEXAI_TOOLS`, a call with `strict=True`
reaches pydantic validation with `strict=False`: line 378 of the source
overwrites the argument unconditionally. -/
theorem c5_vertexai_tools_ignores_strict :
    from_response trivialEnv strictSpyCls vertexToolsCompletion none
      (some true) .VERTEXAI_TOOLS = .ok (some false) := rfl

/-- C5 (amended): the caller's strict argument is honored in every mode's
parsing path except `Mode.VERTEXAI_TOOLS`, which validates with
`strict=False` regardless of the caller's argument. Pass-through modes hand
the caller's `strict` to validation unchanged; the anthropic/gemini JSON
modes validate strictly exactly when the caller passed `strict=True` and
otherwise parse with `json.loads(strict=False)` and validate with
`strict=False`. -/
theorem c5_strict_honored_except_vertexai_tools {α : Type} (env : PyEnv)
    (cls : TargetCls α) (completion : Completion) (ctx : Option Ctx)
    (strict : Option Bool) :
    (∀ c0 rest tc, completion.choices = c0 :: rest →
      c0.finish_reason ≠ some "length" →
      c0.message.tool_calls.getD [] = [tc] →
      tc.function.name = cls.schemaName →
      ∀ mode, (mode = Mode.TOOLS ∨ mode = .MISTRAL_TOOLS) →
      from_response env cls completion ctx strict mode =
        liftValidation (cls.validateJson tc.function.arguments ctx strict)) ∧
    (∀ c0 rest fc, completion.choices = c0 :: rest →
      c0.finish_reason ≠ some "length" →
      c0.message.function_call = some fc →
      fc.name = cls.schemaName →
      from_response env cls completion ctx strict .FUNCTIONS =
        liftValidation (cls.validateJson fc.arguments ctx strict)) ∧
    (∀ c0 rest, completion.choices = c0 :: rest →
      c0.finish_reason ≠ some "length" →
      ∀ mode, (mode = Mode.JSON ∨ mode = .JSON_SCHEMA ∨ mode = .MD_JSON) →
      from_response env cls completion ctx strict mode =
        liftValidation (cls.validateJson
          (env.extract_json_from_codeblock (c0.message.content.getD ""))
          ctx strict)) ∧
    (∀ t, completion.text = some t →
      from_response env cls completion ctx strict .COHERE_JSON_SCHEMA =
        liftValidation (cls.validateJson t ctx strict)) ∧
    (∀ t, completion.text = some t →
      from_response env cls completion ctx strict .COHERE_TOOLS =
        liftValidation (cls.validateJson (env.extract_json_from_codeblock t)
          ctx strict)) ∧
    (¬ (completion.isAnthropicMessage = true ∧
        completion.stop_reason = some "max_tokens") →
      ∀ tc, toolUseInputs completion.content = [tc] →
      from_response env cls completion ctx strict .ANTHROPIC_TOOLS =
        liftValidation (cls.validateJson tc ctx strict)) ∧
    (completion.isAnthropicMessage = true →
      completion.stop_reason ≠ some "max_tokens" →
      ∀ t rest, completion.content = .textBlock t :: rest →
      (strict = some true →
        from_response env cls completion ctx strict .ANTHROPIC_JSON =
          liftValidation (cls.validateJson (env.extract_json_from_codeblock t)
            ctx (some true))) ∧
      (strict ≠ some true →
        ∀ parsed, env.jsonLoads (env.extract_json_from_codeblock t) false = .ok parsed →
        from_response env cls completion ctx strict .ANTHROPIC_JSON =
          liftValidation (cls.validateObj parsed ctx (some false)))) ∧
    (∀ t, completion.text = some t →
      (strict = some true →
        from_response env cls completion ctx strict .GEMINI_JSON =
          liftValidation (cls.validateJson (env.extract_json_from_codeblock t)
            ctx (some true))) ∧
      (strict ≠ some true →
        ∀ parsed, env.jsonLoads (env.extract_json_from_codeblock t) false = .ok parsed →
        from_response env cls completion ctx strict .GEMINI_JSON =
          liftValidation (cls.validateObj parsed ctx (some false)))) ∧
    (∀ t parsed, completion.text = some t → env.jsonLoads t true = .ok parsed →
      from_response env cls completion ctx strict .VERTEXAI_JSON =
        liftValidation (cls.validateObj parsed ctx strict)) ∧
    (∀ cand crest part prest, completion.candidates = cand :: crest →
      cand.content.parts = part :: prest →
      from_response env cls completion ctx strict .VERTEXAI_TOOLS =
        liftValidation (cls.validateObj (.obj part.function_call.args) ctx
          (some false))) := by
  refine ⟨?_, ?_, ?_, ?_, ?_, ?_, ?_, ?_, ?_, ?_⟩
  · intro c0 rest tc hch hfr htc hname mode hmode
    rcases hmode with h | h <;> subst h <;>
      simp [from_response, parse_tools, hch, hfr, htc, hname]
  · intro c0 rest fc hch hfr hfc hname
    simp [from_response, parse_functions, hch, hfr, hfc, hname]
  · intro c0 rest hch hfr mode hmode
    rcases hmode with h | h | h <;> subst h <;>
      simp [from_response, parse_json, hch, hfr]
  · intro t ht
    simp [from_response, parse_cohere_json_schema, ht]
  · intro t ht
    simp [from_response, parse_cohere_tools, ht]
  · intro hnt tc htc
    simp [from_response, parse_anthropic_tools, hnt, htc]
  · intro hm hs t rest hco
    constructor
    · intro hstrict
      simp [from_response, parse_anthropic_json, hm, hs, hco, hstrict]
    · intro hstrict parsed hparsed
      simp [from_response, parse_anthropic_json, hm, hs, hco, hstrict, hparsed]
  · intro t ht
    constructor
    · intro hstrict
      simp [from_response, parse_gemini_json, ht, hstrict]
    · intro hstrict parsed hparsed
      simp [from_response, parse_gemini_json, ht, hstrict, hparsed]
  · intro t parsed ht hparsed
    simp [from_response, parse_vertexai_json, ht, hparsed]
  · intro cand crest part prest hcand hparts
    simp [from_response, parse_vertexai_tools, hcand, hparts]

/-- Choice carrying exactly one tool call named `Spy`, matching the spy
class's schema name. -/
def spyToolCallChoice : Choice :=
  { message := { tool_calls := some [⟨⟨"Spy", "\x7b\x7d"⟩⟩] } }

/-- Completion with one tool call named `Spy`. -/
def spyToolCallCompletion : Completion :=
  { choices := [spyToolCallChoice] }

/-- Witness for the amended C5 theorem: in tool-call-array mode the spy class
sees the caller's `strict=True`, while in `VERTEXAI_TOOLS` it sees `False`. -/
theorem c5_strict_honored_except_vertexai_tools_witness :
    from_response trivialEnv strictSpyCls spyToolCallCompletion none
      (some true) .TOOLS = .ok (some true) ∧
    from_response trivialEnv strictSpyCls vertexToolsCompletion none
      (some true) .VERTEXAI_TOOLS = .ok (some false) := by
  constructor
  · have h := (c5_strict_honored_except_vertexai_tools trivialEnv
      strictSpyCls spyToolCallCompletion none (some true)).1
      spyToolCallChoice [] ⟨⟨"Spy", "\x7b\x7d"⟩⟩ rfl (by simp [spyToolCallChoice])
      rfl rfl .TOOLS (Or.inl rfl)
    simpa [liftValidation, strictSpyCls] using h
  · have h := (c5_strict_honored_except_vertexai_tools trivialEnv
      strictSpyCls vertexToolsCompletion none (some true)).2.2.2.2.2.2.2.2.2
      vertexCandidate [] vertexPart [] rfl rfl
    simpa [liftValidation, strictSpyCls] using h

/-! ### Claim C10 -/

/-- The modes `from_response` dispatches to a provider-specific parser before
the truncation check. -/
def handledEarly (mode : Mode) : Bool :=
  mode = .ANTHROPIC_TOOLS ∨ mode = .ANTHROPIC_JSON ∨ mode = .VERTEXAI_TOOLS ∨
    mode = .VERTEXAI_JSON ∨ mode = .COHERE_TOOLS ∨ mode = .GEMINI_JSON ∨
    mode = .COHERE_JSON_SCHEMA

/-- The OpenAI-family modes `from_response` recognizes after the truncation
check. -/
def openAIFamily (mode : Mode) : Bool :=
  mode = .FUNCTIONS ∨ mode = .TOOLS ∨ mode = .MISTRAL_TOOLS ∨
    mode = .JSON ∨ mode = .JSON_SCHEMA ∨ mode = .MD_JSON

/-- C10: for every mode neither handled early nor recognized as OpenAI-family,
the `finish_reason == "length"` check on the first choice comes before the
invalid-mode check: with that finish reason the call raises
`IncompleteOutputException`, and the `ValueError` naming the mode is raised
only without it. -/
theorem c10_length_check_precedes_invalid_mode {α : Type} (env : PyEnv)
    (cls : TargetCls α) (completion : Completion) (ctx : Option Ctx)
    (strict : Option Bool) (mode : Mode)
    (hearly : handledEarly mode = false) (hfam : openAIFamily mode = false) :
    ∀ c0 rest, completion.choices = c0 :: rest →
      (c0.finish_reason = some "length" →
        from_response env cls completion ctx strict mode =
          .error (.incompleteOutput completion)) ∧
      (c0.finish_reason ≠ some "length" →
        from_response env cls completion ctx strict mode =
          .error (.valueError ("Invalid patch mode: " ++ modeName mode))) := by
  intro c0 rest hch
  cases mode <;> simp [handledEarly, openAIFamily] at hearly hfam <;>
    constructor <;> intro hfr <;> simp [from_response, hch, hfr]

/-- Unknown-mode completion whose first choice did not stop for length. -/
def okFinishCompletion : Completion :=
  { choices := [{ finish_reason := some "stop", message := {} }] }

/-- Witness for C10 at `Mode.PARALLEL_TOOLS` with concrete completions. -/
theorem c10_length_check_precedes_invalid_mode_witness :
    from_response trivialEnv unitCls openaiTruncated none none .PARALLEL_TOOLS =
      .error (.incompleteOutput openaiTruncated) ∧
    from_response trivialEnv unitCls okFinishCompletion none none .PARALLEL_TOOLS =
      .error (.valueError "Invalid patch mode: Mode.PARALLEL_TOOLS") := by
  constructor
  · exact (c10_length_check_precedes_invalid_mode trivialEnv unitCls
      openaiTruncated none none .PARALLEL_TOOLS rfl rfl
      { finish_reason := some "length", message := {} } [] rfl).1 rfl
  · exact (c10_length_check_precedes_invalid_mode trivialEnv unitCls
      okFinishCompletion none none .PARALLEL_TOOLS rfl rfl
      { finish_reason := some "stop", message := {} } [] rfl).2 (by simp)

/-! ## Schema derivation
Embedding of `openai_schema_helper` and the module-level `openai_schema`
decorator (`src/instructor/function_calls.py`, lines 477-519). A Python type
annotation becomes the inductive `Ty`, mirroring exactly the shapes the helper
dispatches on: `get_origin` is `list` / `Literal` / `Union`, primitive or enum
subclasses, `BaseModel` subclasses, bare un-parameterized classes (falsy
origin), and parameterized generics with any other origin (the unsupported
shape, e.g. `dict[str, int]`, identified by its printed name). -/

mutual
/-- A type annotation shape. -/
inductive Ty where
  | strT
  | intT
  | boolT
  | floatT
  | bytesT
  | enumT (name : String)
  | literalT (values : List String)
  | listT (elem : Ty)
  | unionT (args : TyList)
  | modelT (m : ModelDef)
  | bareT (name : String)
  | unsupportedT (name : String)
/-- The ordered alternatives of a `Union[...]` annotation. -/
inductive TyList where
  | nil
  | cons (head : Ty) (tail : TyList)
/-- A `BaseModel` subclass: its name, whether it already subclasses
`OpenAISchema`, and its ordered `model_fields`. -/
inductive ModelDef where
  | mk (name : String) (isOpenAISchema : Bool) (fields : FieldList)
/-- The ordered field list of a model. -/
inductive FieldList where
  | nil
  | cons (f : FieldDef) (rest : FieldList)
/-- One model field: its name and annotation (its `field_info` is copied
wholesale by the helper and plays no role in the derivation). -/
inductive FieldDef where
  | mk (name : String) (ty : Ty)
end

/-- The exceptions schema derivation can raise: the `ValueError("Unsupported
Class of ...")` of the helper and the `TypeError` of the decorator. -/
inductive SchemaErr where
  | unsupportedClass (msg : String)
  | notBaseModel (msg : String)
  deriving Repr, DecidableEq

mutual
/-- Embedding of `openai_schema_helper` (lines 477-512), in the source's
dispatch order: `list` origin recurses on the element; `Literal` is returned
unchanged; `Union` recurses element-wise (order preserved); primitive and enum
subclasses are returned unchanged; a `BaseModel` subclass is rebuilt by
`create_model` with the same name, recursively derived field annotations and
`__base__ = (cls, OpenAISchema)` (so the result subclasses `OpenAISchema` and
retains the original class's validation behavior); a falsy origin is returned
unchanged; anything else raises `ValueError` naming the class. -/
def openai_schema_helper : Ty → Except SchemaErr Ty
  | .listT elem => do
      let e ← openai_schema_helper elem
      .ok (.listT e)
  | .literalT vs => .ok (.literalT vs)
  | .unionT args => do
      let a ← helperTyList args
      .ok (.unionT a)
  | .strT => .ok .strT
  | .intT => .ok .intT
  | .boolT => .ok .boolT
  | .floatT => .ok .floatT
  | .bytesT => .ok .bytesT
  | .enumT n => .ok (.enumT n)
  | .modelT (.mk name _ fields) => do
      let fs ← helperFieldList fields
      .ok (.modelT (.mk name true fs))
  | .bareT n => .ok (.bareT n)
  | .unsupportedT n =>
      .error (.unsupportedClass ("Unsupported Class of " ++ n ++ "!"))
/-- Element-wise derivation of the union alternatives
(`Union[tuple(openai_schema_helper(arg) for arg in cls.__args__)]`). -/
def helperTyList : TyList → Except SchemaErr TyList
  | .nil => .ok .nil
  | .cons t ts => do
      let t2 ← openai_schema_helper t
      let ts2 ← helperTyList ts
      .ok (.cons t2 ts2)
/-- The `for field_name, field_info in cls.model_fields.items()` loop:
each field's annotation is recursively derived, the field set is unchanged. -/
def helperFieldList : FieldList → Except SchemaErr FieldList
  | .nil => .ok .nil
  | .cons (.mk fname fty) rest => do
      let t2 ← openai_schema_helper fty
      let r2 ← helperFieldList rest
      .ok (.cons (.mk fname t2) r2)
end

/-- Embedding of the module-level `openai_schema` decorator (lines 515-519):
`TypeError` unless the class is a `BaseModel` subclass, else the helper. -/
def openai_schema (cls : Ty) : Except SchemaErr Ty :=
  match cls with
  | .modelT m => openai_schema_helper (.modelT m)
  | _ => .error (.notBaseModel "Class must be a subclass of pydantic.BaseModel")

mutual
/-- Structural skeleton of a type: identical except that the
`OpenAISchema`-capability tag of every model is erased. Two types with the
same `shape` are structurally isomorphic: same leaves, same collection/union
structure and order, same model names and field sets. -/
def shape : Ty → Ty
  | .listT e => .listT (shape e)
  | .unionT args => .unionT (shapeTyList args)
  | .modelT (.mk name _ fields) => .modelT (.mk name false (shapeFieldList fields))
  | t => t
/-- Element-wise shape of union alternatives. -/
def shapeTyList : TyList → TyList
  | .nil => .nil
  | .cons t ts => .cons (shape t) (shapeTyList ts)
/-- Element-wise shape of model fields. -/
def shapeFieldList : FieldList → FieldList
  | .nil => .nil
  | .cons (.mk n t) rest => .cons (.mk n (shape t)) (shapeFieldList rest)
end

mutual
/-- The type definitions the C8 property ranges over: built only from
primitives, enums, literals, nested models, ordered collections and unions. -/
def supportedTy : Ty → Bool
  | .strT | .intT | .boolT | .floatT | .bytesT => true
  | .enumT _ => true
  | .literalT _ => true
  | .listT e => supportedTy e
  | .unionT args => supportedTyList args
  | .modelT (.mk _ _ fields) => supportedFieldList fields
  | .bareT _ => false
  | .unsupportedT _ => false
/-- Pointwise support of union alternatives. -/
def supportedTyList : TyList → Bool
  | .nil => true
  | .cons t ts => supportedTy t && supportedTyList ts
/-- Pointwise support of model fields. -/
def supportedFieldList : FieldList → Bool
  | .nil => true
  | .cons (.mk _ t) rest => supportedTy t && supportedFieldList rest
end

/-- Names of a model's fields, in order. -/
def fieldNames : FieldList → List String
  | .nil => []
  | .cons (.mk n _) rest => n :: fieldNames rest

theorem exceptBind_ok {ε α β : Type} (a : α) (f : α → Except ε β) :
    (Except.ok a : Except ε α) >>= f = f a := rfl

theorem exceptBind_error {ε α β : Type} (e : ε) (f : α → Except ε β) :
    (Except.error e : Except ε α) >>= f = Except.error e := rfl

theorem helperFieldList_names : ∀ (fields fs2 : FieldList),
    helperFieldList fields = .ok fs2 → fieldNames fs2 = fieldNames fields
  | .nil, fs2, h => by
      cases h
      rfl
  | .cons (.mk fname fty) rest, fs2, h => by
      simp only [helperFieldList] at h
      rcases ht : openai_schema_helper fty with e | t2
      · rw [ht] at h
        simp only [exceptBind_error] at h
        cases h
      · rw [ht] at h
        simp only [exceptBind_ok] at h
        rcases hr : helperFieldList rest with e | r2
        · rw [hr] at h
          simp only [exceptBind_error] at h
          cases h
        · rw [hr] at h
          simp only [exceptBind_ok] at h
          cases h
          simp [fieldNames, helperFieldList_names rest r2 hr]

mutual
theorem helper_shape_ty : ∀ t : Ty, supportedTy t = true →
    ∃ t2, openai_schema_helper t = .ok t2 ∧ shape t2 = shape t
  | .strT, _ => ⟨.strT, rfl, rfl⟩
  | .intT, _ => ⟨.intT, rfl, rfl⟩
  | .boolT, _ => ⟨.boolT, rfl, rfl⟩
  | .floatT, _ => ⟨.floatT, rfl, rfl⟩
  | .bytesT, _ => ⟨.bytesT, rfl, rfl⟩
  | .enumT n, _ => ⟨.enumT n, rfl, rfl⟩
  | .literalT vs, _ => ⟨.literalT vs, rfl, rfl⟩
  | .listT e, h => by
      simp only [supportedTy] at h
      obtain ⟨e2, he, hs⟩ := helper_shape_ty e h
      refine ⟨.listT e2, ?_, ?_⟩
      · simp only [openai_schema_helper, he]
        rfl
      · simp only [shape, hs]
  | .unionT args, h => by
      simp only [supportedTy] at h
      obtain ⟨a2, ha, hs⟩ := helper_shape_tyList args h
      refine ⟨.unionT a2, ?_, ?_⟩
      · simp only [openai_schema_helper, ha]
        rfl
      · simp only [shape, hs]
  | .modelT (.mk name flag fields), h => by
      simp only [supportedTy] at h
      obtain ⟨fs2, hf, hs⟩ := helper_shape_fieldList fields h
      refine ⟨.modelT (.mk name true fs2), ?_, ?_⟩
      · simp only [openai_schema_helper, hf]
        rfl
      · simp only [shape, hs]
theorem helper_shape_tyList : ∀ args : TyList, supportedTyList args = true →
    ∃ a2, helperTyList args = .ok a2 ∧ shapeTyList a2 = shapeTyList args
  | .nil, _ => ⟨.nil, rfl, rfl⟩
  | .cons t ts, h => by
      simp only [supportedTyList, Bool.and_eq_true] at h
      obtain ⟨t2, ht, hst⟩ := helper_shape_ty t h.1
      obtain ⟨ts2, hts, hsts⟩ := helper_shape_tyList ts h.2
      refine ⟨.cons t2 ts2, ?_, ?_⟩
      · simp only [helperTyList, ht, hts]
        rfl
      · simp only [shapeTyList, hst, hsts]
theorem helper_shape_fieldList : ∀ fields : FieldList,
    supportedFieldList fields = true →
    ∃ fs2, helperFieldList fields = .ok fs2 ∧
      shapeFieldList fs2 = shapeFieldList fields
  | .nil, _ => ⟨.nil, rfl, rfl⟩
  | .cons (.mk fname fty) rest, h => by
      simp only [supportedFieldList, Bool.and_eq_true] at h
      obtain ⟨t2, ht, hst⟩ := helper_shape_ty fty h.1
      obtain ⟨r2, hr, hsr⟩ := helper_shape_fieldList rest h.2
      refine ⟨.cons (.mk fname t2) r2, ?_, ?_⟩
      · simp only [helperFieldList, ht, hr]
        rfl
      · simp only [shapeFieldList, hst, hsr]
end

/-! ### Claim C6 -/

/-- C6: on a type definition whose shape is unrecognized (a parameterized
generic whose origin is not `list`, `Literal` or `Union`), schema derivation
fails with the unsupported-type error naming the offending type — both when
the helper meets it directly and when `openai_schema` meets it nested inside
a model's field. (In the source this error is the `ValueError("Unsupported
Class of {cls}!")` of line 512.) -/
theorem c6_unsupported_shape_fails_naming_type :
    (∀ n, openai_schema_helper (.unsupportedT n) =
      .error (.unsupportedClass ("Unsupported Class of " ++ n ++ "!"))) ∧
    (∀ name flag fname n,
      openai_schema (.modelT (.mk name flag
          (.cons (.mk fname (.unsupportedT n)) .nil))) =
        .error (.unsupportedClass ("Unsupported Class of " ++ n ++ "!"))) := by
  constructor
  · intro n
    rfl
  · intro name flag fname n
    rfl

/-! ### Claim C8 -/

/-- C8: on every supported type definition (primitives, enums, literals,
nested models, ordered collections, unions), derivation succeeds and returns a
type of identical shape — leaves unchanged, collections and unions mapped
element-wise with order preserved, each synthesized model keeping its name and
field set (first conjunct); primitive and literal leaves are returned exactly
unchanged (second and third conjuncts); unions are derived element-wise
(fourth conjunct); the synthesized model keeps the same field names and gains
the `OpenAISchema` capability on top of the original class (fifth conjunct).
Mutation of the input cannot occur: the embedding is a pure function of it. -/
theorem c8_derivation_structurally_isomorphic :
    (∀ t : Ty, supportedTy t = true →
      ∃ t2, openai_schema_helper t = .ok t2 ∧ shape t2 = shape t) ∧
    (∀ vs, openai_schema_helper (.literalT vs) = .ok (.literalT vs)) ∧
    (openai_schema_helper .strT = .ok .strT ∧
      openai_schema_helper .intT = .ok .intT ∧
      openai_schema_helper .boolT = .ok .boolT ∧
      openai_schema_helper .floatT = .ok .floatT ∧
      openai_schema_helper .bytesT = .ok .bytesT ∧
      ∀ n, openai_schema_helper (.enumT n) = .ok (.enumT n)) ∧
    (∀ args a2, helperTyList args = .ok a2 →
      openai_schema_helper (.unionT args) = .ok (.unionT a2)) ∧
    (∀ name flag fields fs2, helperFieldList fields = .ok fs2 →
      openai_schema_helper (.modelT (.mk name flag fields)) =
        .ok (.modelT (.mk name true fs2)) ∧
      fieldNames fs2 = fieldNames fields) := by
  refine ⟨helper_shape_ty, fun _ => rfl,
    ⟨rfl, rfl, rfl, rfl, rfl, fun _ => rfl⟩, ?_, ?_⟩
  · intro args a2 h
    simp only [openai_schema_helper, h]
    rfl
  · intro name flag fields fs2 h
    exact ⟨by simp only [openai_schema_helper, h]; rfl,
      helperFieldList_names fields fs2 h⟩

/-- A supported two-field model nested in a list-of-union annotation. -/
def sampleTy : Ty :=
  .listT (.unionT (.cons (.modelT (.mk "Person"
    false (.cons (.mk "name" .strT) (.cons (.mk "age" .intT) .nil))))
    (.cons .strT .nil)))

/-- Witness for C8 at a concrete nested annotation. -/
theorem c8_derivation_structurally_isomorphic_witness :
    ∃ t2, openai_schema_helper sampleTy = .ok t2 ∧ shape t2 = shape sampleTy :=
  c8_derivation_structurally_isomorphic.1 sampleTy rfl

/-! ## Schema descriptor
Embedding of the `OpenAISchema.openai_schema` classproperty
(`src/instructor/function_calls.py`, lines 36-76). Its two collaborators are
inputs: the structural schema `cls.model_json_schema()` produced by pydantic
(title, optional top-level description, ordered properties each carrying
whether pydantic emitted a `default` key and an optional description), and
`docstring_parser.parse(cls.__doc__)` (optional short description plus ordered
per-parameter entries). -/

/-- One entry of `schema["properties"]`: whether the key `default` is present
and the optional `description`. -/
structure PropSchema where
  hasDefault : Bool
  description : Option String
  deriving Repr, DecidableEq

/-- The output of `cls.model_json_schema()`, restricted to the keys the
descriptor reads. -/
structure JsonSchema where
  title : String
  description : Option String
  properties : List (String × PropSchema)
  deriving Repr, DecidableEq

/-- One `docstring.params` entry of the doc-string collaborator. -/
structure DocParam where
  arg_name : String
  description : Option String
  deriving Repr, DecidableEq

/-- The parsed doc-string. -/
structure Docstring where
  short_description : Option String
  params : List DocParam
  deriving Repr, DecidableEq

/-- The dict the classproperty returns:
`{name, description, parameters{properties, required}}`. -/
structure OpenAISchemaView where
  name : String
  description : String
  properties : List (String × PropSchema)
  required : List String
  deriving Repr, DecidableEq

/-- Python truthiness of a doc-string parameter description
(the walrus `(description := param.description)` condition): `None` and the
empty string are falsy. -/
def truthyDescription (p : DocParam) : Option String :=
  match p.description with
  | none => none
  | some d => if d = "" then none else some d

/-- One iteration of the `for param in docstring.params` loop (lines 52-57):
when the parameter names a property and its description is truthy and the
property does not already carry a description, the property is updated. -/
def applyParam (props : List (String × PropSchema)) (p : DocParam) :
    List (String × PropSchema) :=
  props.map (fun pr =>
    match truthyDescription p with
    | none => pr
    | some d =>
        if pr.1 = p.arg_name ∧ pr.2.description = none then
          (pr.1, { hasDefault := pr.2.hasDefault, description := some d })
        else pr)

/-- The whole back-fill loop, processing parameters in order. -/
def backfillParams (props : List (String × PropSchema)) :
    List DocParam → List (String × PropSchema)
  | [] => props
  | p :: ps => backfillParams (applyParam props p) ps

/-- The generated fallback description of lines 67-70. -/
def fallbackDescription (name : String) : String :=
  "Correctly extracted `" ++ name ++
    "` with all the required parameters with correct types"

/-- Embedding of the `openai_schema` classproperty (lines 47-76): back-fill
field descriptions from the doc-string, recompute `required` as the sorted
property names lacking a `default` key, and choose the type-level description
(the schema's own entry if present, else a truthy doc-string short
description, else the generated fallback). -/
def OpenAISchema.openai_schema (schema : JsonSchema) (docstring : Docstring) :
    OpenAISchemaView :=
  let props := backfillParams schema.properties docstring.params
  let required := List.insertionSort (fun a b : String => a ≤ b)
    ((props.filter (fun pr => !pr.2.hasDefault)).map (fun pr => pr.1))
  let description :=
    match schema.description with
    | some d => d
    | none =>
        match docstring.short_description with
        | some s => if s = "" then fallbackDescription schema.title else s
        | none => fallbackDescription schema.title
  { name := schema.title, description := description,
    properties := props, required := required }

theorem applyParam_keys (props : List (String × PropSchema)) (p : DocParam) :
    (applyParam props p).map (fun pr => (pr.1, pr.2.hasDefault)) =
      props.map (fun pr => (pr.1, pr.2.hasDefault)) := by
  unfold applyParam
  rw [List.map_map]
  refine List.map_congr_left ?_
  intro pr _
  rcases truthyDescription p with _ | d
  · rfl
  · by_cases hc : pr.1 = p.arg_name ∧ pr.2.description = none
    · simp [hc]
    · simp [hc]

theorem backfill_keys (ps : List DocParam) (props : List (String × PropSchema)) :
    (backfillParams props ps).map (fun pr => (pr.1, pr.2.hasDefault)) =
      props.map (fun pr => (pr.1, pr.2.hasDefault)) := by
  induction ps generalizing props with
  | nil => rfl
  | cons p ps ih =>
      rw [backfillParams, ih, applyParam_keys]

theorem requiredNames_backfill (props : List (String × PropSchema))
    (ps : List DocParam) :
    ((backfillParams props ps).filter (fun pr => !pr.2.hasDefault)).map
        (fun pr => pr.1) =
      (props.filter (fun pr => !pr.2.hasDefault)).map (fun pr => pr.1) := by
  have key : ∀ l : List (String × PropSchema),
      (l.filter (fun pr => !pr.2.hasDefault)).map (fun pr => pr.1) =
        ((l.map (fun pr => (pr.1, pr.2.hasDefault))).filter
          (fun q => !q.2)).map (fun q => q.1) := by
    intro l
    induction l with
    | nil => rfl
    | cons a l ih =>
        by_cases hd : a.2.hasDefault
        · simp [List.filter_cons, hd, ih]
        · simp [List.filter_cons, hd, ih]
  rw [key, key, backfill_keys]

/-! ### Claim C7 -/

/-- C7: the `required` entry of the produced parameter schema is sorted and is
exactly (as a multiset) the names of the properties lacking a `default` key —
the field names without a default value — whatever the doc-string holds. -/
theorem c7_required_sorted_no_default (schema : JsonSchema)
    (docstring : Docstring) :
    (OpenAISchema.openai_schema schema docstring).required.Sorted (· ≤ ·) ∧
    (OpenAISchema.openai_schema schema docstring).required.Perm
      ((schema.properties.filter (fun pr => !pr.2.hasDefault)).map
        (fun pr => pr.1)) := by
  constructor
  · exact List.sorted_insertionSort _ _
  · have hperm := List.perm_insertionSort (fun a b : String => a ≤ b)
      (((backfillParams schema.properties docstring.params).filter
        (fun pr => !pr.2.hasDefault)).map (fun pr => pr.1))
    exact hperm.trans (by rw [requiredNames_backfill])

/-! ### Claim C9 -/

/-- The doc-string description the back-fill loop assigns to a property of the
given name: the first truthy description among the parameters carrying that
name. -/
def docLookup (ps : List DocParam) (name : String) : Option String :=
  ps.findSome? (fun p => if p.arg_name = name then truthyDescription p else none)

theorem docLookup_cons (p : DocParam) (ps : List DocParam) (n : String) :
    docLookup (p :: ps) n =
      ((if p.arg_name = n then truthyDescription p else none).or
        (docLookup ps n)) := by
  rcases h : (if p.arg_name = n then truthyDescription p else none) with _ | d
  · simp [docLookup, List.findSome?_cons, h]
  · simp [docLookup, List.findSome?_cons, h]

theorem backfillParams_description (ps : List DocParam)
    (props : List (String × PropSchema)) :
    backfillParams props ps = props.map (fun pr =>
      (pr.1, { hasDefault := pr.2.hasDefault,
               description := pr.2.description.or (docLookup ps pr.1) })) := by
  induction ps generalizing props with
  | nil =>
      simp only [backfillParams, docLookup, List.findSome?_nil, Option.or_none]
      exact (List.map_id props).symm
  | cons p ps ih =>
      rw [backfillParams, ih, applyParam, List.map_map]
      refine List.map_congr_left ?_
      intro pr _
      simp only [Function.comp]
      rcases htr : truthyDescription p with _ | d
      · have hl : docLookup (p :: ps) pr.1 = docLookup ps pr.1 := by
          rw [docLookup_cons]
          by_cases ha : p.arg_name = pr.1
          · simp [ha, htr]
          · simp [ha]
        simp [htr, hl]
      · by_cases hc : pr.1 = p.arg_name ∧ pr.2.description = none
        · have hl : docLookup (p :: ps) p.arg_name = some d := by
            rw [docLookup_cons]
            simp [htr]
          simp [htr, hc.1, hc.2, hl]
        · have hor : pr.2.description.or (docLookup (p :: ps) pr.1) =
              pr.2.description.or (docLookup ps pr.1) := by
            by_cases ha : pr.1 = p.arg_name
            · rcases hdesc : pr.2.description with _ | d0
              · exact absurd (And.intro ha hdesc) hc
              · rfl
            · rw [docLookup_cons]
              have hne : p.arg_name ≠ pr.1 := fun h2 => ha h2.symm
              simp [hne]
          simp [htr, hc, hor]

/-- C9: the type-level description is the schema's own entry when present,
else a truthy doc-string short description, else the generated fallback
naming the type (first conjunct, three cases); and the output properties are
exactly the input properties with each missing description back-filled by the
first truthy doc-string entry for that name — a property that already carries
a description keeps it, so structural-schema descriptions always win (second
conjunct). -/
theorem c9_description_precedence (schema : JsonSchema) (docstring : Docstring) :
    ((∀ d, schema.description = some d →
        (OpenAISchema.openai_schema schema docstring).description = d) ∧
      (schema.description = none →
        ∀ s, docstring.short_description = some s → s ≠ "" →
          (OpenAISchema.openai_schema schema docstring).description = s) ∧
      (schema.description = none →
        (docstring.short_description = none ∨
          docstring.short_description = some "") →
        (OpenAISchema.openai_schema schema docstring).description =
          fallbackDescription schema.title)) ∧
    (OpenAISchema.openai_schema schema docstring).properties =
      schema.properties.map (fun pr =>
        (pr.1, { hasDefault := pr.2.hasDefault,
                 description := pr.2.description.or
                   (docLookup docstring.params pr.1) })) := by
  refine ⟨⟨?_, ?_, ?_⟩, ?_⟩
  · intro d hd
    simp [OpenAISchema.openai_schema, hd]
  · intro hd s hs hne
    simp [OpenAISchema.openai_schema, hd, hs, hne]
  · intro hd hs
    rcases hs with hs | hs <;> simp [OpenAISchema.openai_schema, hd, hs]
  · show backfillParams schema.properties docstring.params = _
    exact backfillParams_description docstring.params schema.properties

/-- Structural schema of a two-field model: `a` has no default and no
description, `b` has a default and a structural description. -/
def c9Schema : JsonSchema :=
  { title := "Sum", description := none,
    properties := [("a", ⟨false, none⟩), ("b", ⟨true, some "kept"⟩)] }

/-- Doc-string with a short description and entries for both fields. -/
def c9Doc : Docstring :=
  { short_description := some "Adds numbers",
    params := [⟨"a", some "first operand"⟩, ⟨"b", some "ignored"⟩] }

/-- Witness for C9: the short description is used (the schema has none), the
missing description of `a` is back-filled, and the structural description of
`b` wins over the doc-string entry. -/
theorem c9_description_precedence_witness :
    (OpenAISchema.openai_schema c9Schema c9Doc).description = "Adds numbers" ∧
    (OpenAISchema.openai_schema c9Schema c9Doc).properties =
      [("a", ⟨false, some "first operand"⟩), ("b", ⟨true, some "kept"⟩)] := by
  constructor
  · exact (c9_description_precedence c9Schema c9Doc).1.2.1 rfl
      "Adds numbers" rfl (by decide)
  · rw [(c9_description_precedence c9Schema c9Doc).2]
    rfl

end Instructor
